import Mathlib

/-!
Shallow embedding of the API Lens JS SDK ingest client
(`src/sdks/js/src/client.ts`, `src/sdks/js/src/utils.ts`,
`src/sdks/js/src/express.ts`).  JavaScript values reaching the numeric
helpers are modelled by the outcome of the `Number()` coercion (a finite
rational or a non-finite value); JavaScript strings by `String`; byte
buffers by `List Nat`; the transport by an oracle giving the outcome of
each successive `sendBatch` call.
-/

/-- Outcome of the JavaScript `Number()` coercion of an arbitrary value:
either a finite rational or a non-finite result (`NaN`, plus or minus
infinity). -/
inductive JSNum where
  | fin (q : Rat)
  | nonfin
deriving DecidableEq

/-- A JavaScript value as far as the strict comparison `=== false` used
for the `enabled` flag can observe it. -/
inductive JSVal where
  | undef
  | null
  | boolv (b : Bool)
  | numv (q : Rat)
  | nanv
  | strv (s : String)
deriving DecidableEq

/-- The JavaScript strict comparison `value === false`. -/
def JSVal.strictEqFalse : JSVal → Bool
  | .boolv false => true
  | _ => false

/-- Model of the JavaScript `toUpperCase` string primitive (which agrees
with per-character ASCII uppercasing on the strings at play). -/
def jsToUpper (s : String) : String := ⟨s.data.map Char.toUpper⟩

/-- Model of the JavaScript `toLowerCase` string primitive. -/
def jsToLower (s : String) : String := ⟨s.data.map Char.toLower⟩

/-- Model of the JavaScript `trim` string primitive: drop leading and
trailing whitespace. -/
def jsTrim (s : String) : String :=
  ⟨((s.data.dropWhile Char.isWhitespace).reverse.dropWhile
      Char.isWhitespace).reverse⟩

/-- Model of the JavaScript `startsWith` string primitive. -/
def jsStartsWith (s pre : String) : Bool :=
  pre.data.isPrefixOf s.data

/-- Model of the JavaScript `endsWith` string primitive. -/
def jsEndsWith (s suf : String) : Bool :=
  suf.data.reverse.isPrefixOf s.data.reverse

/-- Model of `s.replace(/\/$/, "")`: remove one trailing `/` when
present. -/
def stripTrailingSlash (s : String) : String :=
  if jsEndsWith s "/" then ⟨s.data.dropLast⟩ else s

/-- `toNumber` from `utils.ts`: `Number.isFinite(num) ? num : fallback`. -/
def toNumber (value : JSNum) (fallback : Rat) : Rat :=
  match value with
  | .fin q => q
  | .nonfin => fallback

/-- `toNonNegativeInt` from `utils.ts`:
`Math.floor(toNumber(value, fallback))`, replaced by the fallback when
negative. -/
def toNonNegativeInt (value : JSNum) (fallback : Int) : Int :=
  let num : Int := (toNumber value (fallback : Rat)).floor
  if 0 ≤ num then num else fallback

/-- `normalizePath` from `utils.ts`.  A falsy input (`undefined`, `null`,
`""`) is modelled by the empty string, matching `String(path || "/")`. -/
def normalizePath (path : String) : String :=
  let raw := jsTrim (if path = "" then "/" else path)
  if raw = "" then "/"
  else if jsStartsWith raw "/" then raw
  else "/" ++ raw

/-- Argument to `toISO8601`, as far as `new Date(value)` can classify
it: falsy/absent, a valid `Date` carrying an epoch instant, an invalid
`Date` (such as `new Date(NaN)`: truthy and `instanceof Date` but with a
`NaN` time value), a value that parses to an instant, or an unparsable
value. -/
inductive TimeVal where
  | absent
  | dateObj (t : Int)
  | invalidDate
  | parseable (t : Int)
  | unparseable
deriving DecidableEq

/-- `toISO8601` from `utils.ts`, with timestamps modelled as epoch
milliseconds (the ISO-8601 rendering of an instant is injective, so the
instant stands for its rendered string).  `none` models the `RangeError`
that `toISOString()` raises on an invalid `Date`: the `instanceof Date`
branch calls it with no validity guard, and the `NaN` check of the
source only protects the string/number parse branch. -/
def toISO8601 (now : Int) (value : TimeVal) : Option Int :=
  match value with
  | .absent => some now
  | .dateObj t => some t
  | .invalidDate => none
  | .parseable t => some t
  | .unparseable => some now

/-- `truncateUtf8` from `utils.ts`, on the byte content of the value. -/
def truncateUtf8 (bytes : List Nat) (maxBytes : Int) : List Nat :=
  if maxBytes ≤ 0 then []
  else if (bytes.length : Int) ≤ maxBytes then bytes
  else bytes.take maxBytes.toNat

/-- Argument to `payloadToString`: `null` or `undefined`, a `Buffer`, a
string (carried as its UTF-8 bytes), or any other value (carried as the
UTF-8 bytes of its `JSON.stringify`, with `String(value)` standing in on
the `catch` branch). -/
inductive PayloadValue where
  | nullish
  | buf (bytes : List Nat)
  | str (bytes : List Nat)
  | other (bytes : List Nat)
deriving DecidableEq

/-- `payloadToString` from `utils.ts`, returning the UTF-8 bytes of the
produced string. -/
def payloadToString (value : PayloadValue) (maxBytes : Int) : List Nat :=
  if maxBytes ≤ 0 ∨ value = .nullish then []
  else
    match value with
    | .nullish => []
    | .buf b => truncateUtf8 b maxBytes
    | .str b => truncateUtf8 b maxBytes
    | .other b => truncateUtf8 b maxBytes

/-- `ApiLensRecordInput` from `types.ts`: the loosely typed capture
input.  String-valued fields are modelled by their `String(x)` coercion
with `""` standing for a falsy value; numeric fields by their `Number()`
coercion; the timestamp by its `Date` classification. -/
structure ApiLensRecordInput where
  timestamp : TimeVal := .absent
  environment : String := ""
  method : String := ""
  path : String := ""
  status_code : JSNum := .nonfin
  response_time_ms : JSNum := .nonfin
  request_size : JSNum := .nonfin
  response_size : JSNum := .nonfin
  ip_address : String := ""
  user_agent : String := ""
  consumer_id : String := ""
  consumer_name : String := ""
  consumer_group : String := ""
  request_payload : String := ""
  response_payload : String := ""
deriving DecidableEq

/-- `ApiLensRecord` from `types.ts`: the normalized telemetry record. -/
structure ApiLensRecord where
  timestamp : Int
  environment : String
  method : String
  path : String
  status_code : Int
  response_time_ms : Rat
  request_size : Int
  response_size : Int
  ip_address : String
  user_agent : String
  consumer_id : String
  consumer_name : String
  consumer_group : String
  request_payload : String
  response_payload : String
deriving DecidableEq

/-- `normalizeRecord` from `client.ts` lines 50-72 (`now` is the instant
the ambient clock would report).  `none` models the `RangeError`
propagating out of the timestamp field initializer; every other field
coercion (`String`, `Math.max`, `toNonNegativeInt`) is total. -/
def normalizeRecord (now : Int) (input : ApiLensRecordInput)
    (defaultEnvironment : String) : Option ApiLensRecord :=
  match toISO8601 now input.timestamp with
  | none => none
  | some ts =>
    some
      { timestamp := ts
        environment :=
          if input.environment ≠ "" then input.environment
          else if defaultEnvironment ≠ "" then defaultEnvironment
          else "production"
        method := jsToUpper (if input.method = "" then "GET"
          else input.method)
        path := normalizePath (if input.path = "" then "/" else input.path)
        status_code := toNonNegativeInt input.status_code 0
        response_time_ms := max (toNumber input.response_time_ms 0) 0
        request_size := toNonNegativeInt input.request_size 0
        response_size := toNonNegativeInt input.response_size 0
        ip_address := input.ip_address
        user_agent := input.user_agent
        consumer_id := input.consumer_id
        consumer_name := input.consumer_name
        consumer_group := input.consumer_group
        request_payload := input.request_payload
        response_payload := input.response_payload }

/-- The numeric client-configuration fields that the queue and delivery
operations read.  The constructor (modelled by `resolveClientConfig`)
produces non-negative integers for them, so they are carried as `Nat`. -/
structure ClientConfig where
  batchSize : Nat
  maxQueueSize : Nat
  maxRetries : Nat
  retryBackoffBaseMs : Nat
  retryBackoffMaxMs : Nat
deriving DecidableEq

/-- Mutable client state: `config.enabled` (which `handleShutdown`
mutates), the flush-interval timer handle, the queue, and the dropped
counter. -/
structure ClientState where
  config_enabled : Bool
  timerArmed : Bool
  queue : List ApiLensRecord
  droppedCount : Nat
deriving DecidableEq

/-- `ApiLensClient.captureRecord` (`client.ts` lines 171-186): when at
capacity, shift off the oldest record and increment the dropped counter,
then append the new record.  The size-triggered `void this.flushOnce()`
is started asynchronously and is modelled by a separate `flushOnce`
step. -/
def ApiLensClient.captureRecord (cfg : ClientConfig) (s : ClientState)
    (record : ApiLensRecord) : ClientState :=
  if !s.config_enabled then s
  else
    let s1 :=
      if cfg.maxQueueSize ≤ s.queue.length then
        { s with queue := s.queue.tail, droppedCount := s.droppedCount + 1 }
      else s
    { s1 with queue := s1.queue ++ [record] }

/-- `ApiLensClient.capture` (`client.ts` lines 167-169): normalize, then
enqueue.  `none` models the normalization `RangeError` propagating to
the caller; the queue is untouched in that case because the throw
happens before `captureRecord` runs. -/
def ApiLensClient.capture (now : Int) (cfg : ClientConfig)
    (environment : String) (s : ClientState)
    (input : ApiLensRecordInput) : Option ClientState :=
  match normalizeRecord now input environment with
  | none => none
  | some record => some (ApiLensClient.captureRecord cfg s record)

/-- Result of `sendBatchWithRetry`: whether it returned `true`, how many
`sendBatch` transport calls it made, and the backoff waits it slept
between attempts, in order. -/
structure RetryResult where
  success : Bool
  calls : Nat
  waits : List Nat
deriving DecidableEq

/-- The retry loop of `ApiLensClient.sendBatchWithRetry` (`client.ts`
lines 236-259).  The transport outcome of the i-th `sendBatch` call of
this invocation is `oracle (k + i)`; `remaining = maxRetries - attempt`
counts the attempts the `for` loop still allows, so `remaining = 0` is
exactly the `attempt >= maxRetries` final-failure branch. -/
def retryGo (oracle : Nat → Bool) (base cap k : Nat) :
    Nat → Nat → RetryResult
  | attempt, 0 =>
    if oracle (k + attempt) then ⟨true, 1, []⟩ else ⟨false, 1, []⟩
  | attempt, remaining + 1 =>
    if oracle (k + attempt) then ⟨true, 1, []⟩
    else
      let backoffMs := min (base * 2 ^ attempt) cap
      let r := retryGo oracle base cap k (attempt + 1) remaining
      ⟨r.success, r.calls + 1, backoffMs :: r.waits⟩

/-- `ApiLensClient.sendBatchWithRetry` (`client.ts` lines 236-259); `k`
is the number of transport calls the client made before this
invocation. -/
def ApiLensClient.sendBatchWithRetry (cfg : ClientConfig)
    (oracle : Nat → Bool) (k : Nat) : RetryResult :=
  retryGo oracle cfg.retryBackoffBaseMs cfg.retryBackoffMaxMs k 0
    cfg.maxRetries

/-- Result of a flush operation: the client state afterwards, the value
returned, the transport calls made (each entry is the batch POSTed by
one `sendBatch` call, in order), and whether the flush logged its
dropped-batch warning. -/
structure FlushResult where
  state : ClientState
  sent : Nat
  calls : List (List ApiLensRecord)
  warned : Bool
deriving DecidableEq

/-- `ApiLensClient.flushOnce` (`client.ts` lines 195-211). -/
def ApiLensClient.flushOnce (cfg : ClientConfig) (oracle : Nat → Bool)
    (k : Nat) (s : ClientState) : FlushResult :=
  if s.queue.isEmpty then ⟨s, 0, [], false⟩
  else
    let batch := s.queue.take cfg.batchSize
    let s1 : ClientState := { s with queue := s.queue.drop cfg.batchSize }
    let r := ApiLensClient.sendBatchWithRetry cfg oracle k
    if r.success then ⟨s1, batch.length, List.replicate r.calls batch, false⟩
    else ⟨s1, 0, List.replicate r.calls batch, true⟩

/-- Result of `flushAll`: final state, total records reported sent, and
all transport calls made, in order. -/
structure FlushAllResult where
  state : ClientState
  sent : Nat
  calls : List (List ApiLensRecord)
deriving DecidableEq

/-- The `while` loop of `ApiLensClient.flushAll`, with explicit fuel.
`flushAll` supplies `fuel = queue.length`; since every iteration that
continues removed at least one record, the loop never exhausts this fuel
with the queue still non-empty, and the fuel-free loop equation is
proved below. -/
def flushAllGo (cfg : ClientConfig) (oracle : Nat → Bool) :
    Nat → Nat → ClientState → FlushAllResult
  | 0, _, s => ⟨s, 0, []⟩
  | fuel + 1, k, s =>
    if s.queue.isEmpty then ⟨s, 0, []⟩
    else
      let r := ApiLensClient.flushOnce cfg oracle k s
      if r.sent = 0 then ⟨r.state, 0, r.calls⟩
      else
        let rest := flushAllGo cfg oracle fuel (k + r.calls.length) r.state
        ⟨rest.state, r.sent + rest.sent, r.calls ++ rest.calls⟩

/-- `ApiLensClient.flushAll` (`client.ts` lines 213-223). -/
def ApiLensClient.flushAll (cfg : ClientConfig) (oracle : Nat → Bool)
    (k : Nat) (s : ClientState) : FlushAllResult :=
  flushAllGo cfg oracle s.queue.length k s

/-- `ApiLensClient.stop` (`client.ts` lines 158-165): disarm the
flush-interval timer. -/
def ApiLensClient.stop (s : ClientState) : ClientState :=
  { s with timerArmed := false }

/-- `ApiLensClient.start` (`client.ts` lines 144-156): arm the timer
unless already armed or the client is disabled. -/
def ApiLensClient.start (s : ClientState) : ClientState :=
  if s.timerArmed || !s.config_enabled then s
  else { s with timerArmed := true }

/-- `ApiLensClient.handleShutdown` (`client.ts` lines 225-234): disable,
stop the timer, optionally drain; returns the final state and the
transport calls made.  Releasing the singleton (`instance = undefined`)
is module state outside this model. -/
def ApiLensClient.handleShutdown (flush : Bool) (cfg : ClientConfig)
    (oracle : Nat → Bool) (k : Nat) (s : ClientState) :
    ClientState × List (List ApiLensRecord) :=
  let s1 := ApiLensClient.stop { s with config_enabled := false }
  if flush then
    let r := ApiLensClient.flushAll cfg oracle k s1
    (r.state, r.calls)
  else (s1, [])

/-- Split a character list at the first occurrence of the non-empty
separator `sep`, returning the parts before and after it. -/
def splitAtSub (sep : List Char) : List Char → Option (List Char × List Char)
  | [] => none
  | c :: cs =>
    if sep.isPrefixOf (c :: cs) then some ([], (c :: cs).drop sep.length)
    else
      match splitAtSub sep cs with
      | some (pre, post) => some (c :: pre, post)
      | none => none

/-- Split a URL string at the first occurrence of `"://"`. -/
def splitOnSchemeSep (u : String) : Option (String × String) :=
  (splitAtSub "://".data u.data).map fun p => (⟨p.1⟩, ⟨p.2⟩)

/-- Model of the WHATWG `new URL(u).origin` primitive, restricted to
already-normalized absolute URLs (lowercase scheme and host, no
userinfo, no default-port elision): the scheme plus the authority up to
the first `/`.  `none` models the `URL` constructor throwing. -/
def urlOriginOf (u : String) : Option String :=
  (splitOnSchemeSep u).map fun p =>
    p.1 ++ "://" ++ ⟨p.2.data.takeWhile (fun c => c ≠ '/')⟩

/-- Model of `new URL(rel, base).toString()` for a base ending in `/`
and a relative reference without a leading `/`, dot segments, query or
fragment: concatenation.  `none` models an unparsable base. -/
def resolveRelativeUrl (rel base : String) : Option String :=
  match splitOnSchemeSep base with
  | some _ => some (base ++ rel)
  | none => none

/-- The test `/^https?:\/\//i.test(path)` from `sendBatch`. -/
def isHttpAbsolute (path : String) : Bool :=
  jsStartsWith (jsToLower path) "http://"
    || jsStartsWith (jsToLower path) "https://"

/-- The endpoint-resolution part of `ApiLensClient.sendBatch`
(`client.ts` lines 261-275); `none` models the `URL` constructor
throwing on a malformed base URL. -/
def ApiLensClient.sendBatchEndpoint (ingestPath baseUrlCfg : String) :
    Option String :=
  let rawIngestPath :=
    jsTrim (if ingestPath = "" then "ingest/requests" else ingestPath)
  let baseUrl := stripTrailingSlash baseUrlCfg
  if isHttpAbsolute rawIngestPath then some rawIngestPath
  else if jsStartsWith rawIngestPath "/" then
    (urlOriginOf (baseUrl ++ "/")).map fun origin => origin ++ rawIngestPath
  else resolveRelativeUrl rawIngestPath (baseUrl ++ "/")

/-- The response-body accumulator the middleware's stream wrappers
mutate (`express.ts`): the buffered chunk prefixes, the total buffered
bytes, and the running total of bytes written. -/
structure BodyAccum where
  chunks : List (List Nat)
  bufferedSize : Nat
  responseSize : Nat
deriving DecidableEq

/-- The accumulator state at the start of a request. -/
def bodyAccumInit : BodyAccum := ⟨[], 0, 0⟩

/-- One wrapped `res.write` or `res.end` call (`express.ts` lines
127-183; the two wrappers have identical bodies).  `none` models a falsy
chunk; a chunk is carried as its bytes.  `maxPayloadBytes` is a `Nat`
because the middleware clamps it with `Math.max(0, ...)`. -/
def writeChunkStep (capturePayloads logResponseBody : Bool)
    (maxPayloadBytes : Nat) (st : BodyAccum) (chunk : Option (List Nat)) :
    BodyAccum :=
  let byteLen := (chunk.getD []).length
  let st1 := { st with responseSize := st.responseSize + byteLen }
  match chunk with
  | none => st1
  | some raw =>
    if capturePayloads ∧ logResponseBody ∧ 0 < maxPayloadBytes
        ∧ st.bufferedSize < maxPayloadBytes then
      let room := maxPayloadBytes - st.bufferedSize
      let part := raw.take room
      { st1 with
        chunks := st1.chunks ++ [part]
        bufferedSize := st1.bufferedSize + part.length }
    else st1

/-- The `request_payload` value the finish handler assembles
(`express.ts` lines 192-195). -/
def requestPayloadField (capturePayloads logRequestBody : Bool)
    (body : PayloadValue) (maxPayloadBytes : Int) : List Nat :=
  if capturePayloads && logRequestBody then
    payloadToString body maxPayloadBytes
  else []

/-- The `response_payload` value the finish handler assembles
(`express.ts` lines 196-199): the concatenation of the buffered
chunks. -/
def responsePayloadField (capturePayloads logResponseBody : Bool)
    (st : BodyAccum) : List Nat :=
  if capturePayloads && logResponseBody then st.chunks.flatten
  else []

/-- Outcome of running the middleware on one request: the client state
afterwards, whether a capture call was produced, and whether the stream
wrappers and finish handler were installed. -/
structure MiddlewareOutcome where
  state : ClientState
  captured : Bool
  wrappersInstalled : Bool
deriving DecidableEq

/-- Control flow of the request handler built by
`createApiLensMiddleware` (`express.ts` lines 102-230): pass through
without instrumenting when the middleware or the client is disabled or
the method is `OPTIONS`; otherwise install the stream wrappers and a
finish handler that captures the assembled input exactly once.  Any
error the capture bookkeeping raises is caught by the finish handler's
`try`/`catch` (`express.ts` lines 221-226), which logs it and leaves the
client state untouched — modelled by `getD`. -/
def runMiddlewareRequest (now : Int) (middlewareEnabled : Bool)
    (cfg : ClientConfig) (environment : String) (method : String)
    (assembled : ApiLensRecordInput) (s : ClientState) :
    MiddlewareOutcome :=
  if !middlewareEnabled || !s.config_enabled
      || jsToUpper method == "OPTIONS" then
    ⟨s, false, false⟩
  else
    ⟨(ApiLensClient.capture now cfg environment s assembled).getD s,
      true, true⟩

/-- The constructor arguments of `ApiLensClient` that feed the numeric
clamps and the enabled flag (`client.ts` lines 100-124); each numeric
field carries the `Number()` coercion of whatever the caller passed
(absent fields coerce to `NaN`, hence `nonfin`). -/
structure ApiLensClientConfigInput where
  batchSize : JSNum := .nonfin
  flushIntervalMs : JSNum := .nonfin
  timeoutMs : JSNum := .nonfin
  maxQueueSize : JSNum := .nonfin
  maxRetries : JSNum := .nonfin
  retryBackoffBaseMs : JSNum := .nonfin
  retryBackoffMaxMs : JSNum := .nonfin
  enabled : JSVal := .undef
deriving DecidableEq

/-- The numeric and boolean configuration the constructor stores. -/
structure ResolvedClientConfig where
  batchSize : Int
  flushIntervalMs : Int
  timeoutMs : Int
  maxQueueSize : Int
  maxRetries : Int
  retryBackoffBaseMs : Int
  retryBackoffMaxMs : Int
  enabled : Bool
deriving DecidableEq

/-- The numeric-clamping and enabled-flag part of the `ApiLensClient`
constructor (`client.ts` lines 100-124). -/
def resolveClientConfig (c : ApiLensClientConfigInput) :
    ResolvedClientConfig :=
  { batchSize := max (toNonNegativeInt c.batchSize 200) 1
    flushIntervalMs := max (toNonNegativeInt c.flushIntervalMs 3000) 50
    timeoutMs := max (toNonNegativeInt c.timeoutMs 5000) 1
    maxQueueSize := max (toNonNegativeInt c.maxQueueSize 10000) 1
    maxRetries := max (toNonNegativeInt c.maxRetries 3) 0
    retryBackoffBaseMs := max (toNonNegativeInt c.retryBackoffBaseMs 250) 1
    retryBackoffMaxMs := max (toNonNegativeInt c.retryBackoffMaxMs 5000) 1
    enabled := !c.enabled.strictEqFalse }

/-- A telemetry record whose only distinguishing field is `path`, for
concrete examples. -/
def recOfPath (p : String) : ApiLensRecord :=
  { timestamp := 0, environment := "production", method := "GET"
    path := p, status_code := 0, response_time_ms := 0
    request_size := 0, response_size := 0, ip_address := ""
    user_agent := "", consumer_id := "", consumer_name := ""
    consumer_group := "", request_payload := "", response_payload := "" }

/-- A client configuration with the default batch size and a queue
capacity of two, for the worked example of the bounded-queue claim. -/
def exampleCfgQ2 : ClientConfig :=
  { batchSize := 200, maxQueueSize := 2, maxRetries := 3
    retryBackoffBaseMs := 250, retryBackoffMaxMs := 5000 }

/-- A client configuration with the default batch size and a queue
capacity of one, used to exhibit eviction before shutdown. -/
def exampleCfgQ1 : ClientConfig :=
  { batchSize := 200, maxQueueSize := 1, maxRetries := 3
    retryBackoffBaseMs := 250, retryBackoffMaxMs := 5000 }

/-- A freshly constructed enabled client state. -/
def freshClientState : ClientState :=
  { config_enabled := true, timerArmed := true, queue := []
    droppedCount := 0 }

theorem toNonNegativeInt_nonneg (v : JSNum) : 0 ≤ toNonNegativeInt v 0 := by
  unfold toNonNegativeInt
  dsimp only
  split <;> omega

theorem strictEqFalse_iff (v : JSVal) :
    v.strictEqFalse = true ↔ v = .boolv false := by
  cases v with
  | boolv b => cases b <;> simp [JSVal.strictEqFalse]
  | _ => simp [JSVal.strictEqFalse]

/-- C10: the constructor clamps every numeric setting to a usable
minimum: `batchSize` and `maxQueueSize` at least 1, `timeoutMs`,
`retryBackoffBaseMs` and `retryBackoffMaxMs` at least 1,
`flushIntervalMs` at least 50, `maxRetries` at least 0; `batchSize: 0`
yields 1 rather than the default 200; and the `enabled` flag is true for
every value except the literal `false`. -/
theorem claim_C10_constructor_clamps (c : ApiLensClientConfigInput) :
    1 ≤ (resolveClientConfig c).batchSize
    ∧ 1 ≤ (resolveClientConfig c).maxQueueSize
    ∧ 1 ≤ (resolveClientConfig c).timeoutMs
    ∧ 1 ≤ (resolveClientConfig c).retryBackoffBaseMs
    ∧ 1 ≤ (resolveClientConfig c).retryBackoffMaxMs
    ∧ 50 ≤ (resolveClientConfig c).flushIntervalMs
    ∧ 0 ≤ (resolveClientConfig c).maxRetries
    ∧ (resolveClientConfig { c with batchSize := .fin 0 }).batchSize = 1
    ∧ ((resolveClientConfig c).enabled = true ↔ c.enabled ≠ .boolv false) := by
  refine ⟨le_max_right _ _, le_max_right _ _, le_max_right _ _,
    le_max_right _ _, le_max_right _ _, le_max_right _ _,
    le_max_right _ _, ?_, ?_⟩
  · simp only [resolveClientConfig]
    decide
  · simp only [resolveClientConfig, Bool.not_eq_true']
    rw [← Bool.not_eq_true, not_iff_not]
    exact strictEqFalse_iff c.enabled

/-- C9: a request whose method upper-cases to `OPTIONS` never produces a
capture call: the middleware passes through without installing the
stream wrappers or the finish handler, and the client queue and dropped
counter are unchanged. -/
theorem claim_C9_options_never_captured (now : Int)
    (middlewareEnabled : Bool) (cfg : ClientConfig) (environment : String)
    (method : String) (assembled : ApiLensRecordInput) (s : ClientState)
    (h : jsToUpper method = "OPTIONS") :
    runMiddlewareRequest now middlewareEnabled cfg environment method
        assembled s = ⟨s, false, false⟩
    ∧ (runMiddlewareRequest now middlewareEnabled cfg environment method
        assembled s).state.queue = s.queue
    ∧ (runMiddlewareRequest now middlewareEnabled cfg environment method
        assembled s).state.droppedCount = s.droppedCount := by
  have hr : runMiddlewareRequest now middlewareEnabled cfg environment
      method assembled s = ⟨s, false, false⟩ := by
    simp [runMiddlewareRequest, h]
  exact ⟨hr, by rw [hr], by rw [hr]⟩

/-- C9 witness: a concrete mixed-case `oPtIoNs` request leaves a fresh
client untouched. -/
theorem claim_C9_witness :
    jsToUpper "oPtIoNs" = "OPTIONS"
    ∧ runMiddlewareRequest 0 true exampleCfgQ2 "production" "oPtIoNs"
        {} freshClientState = ⟨freshClientState, false, false⟩ :=
  ⟨by decide,
    (claim_C9_options_never_captured 0 true exampleCfgQ2 "production"
      "oPtIoNs" {} freshClientState (by decide)).1⟩

/-- C5: the never-throws claim fails on the code at an invalid `Date`:
such a value is truthy and `instanceof Date`, so the source `toISO8601`
calls `toISOString()` on it with no validity guard and raises
`RangeError`, which `normalizeRecord` propagates — the first conjunct
characterizes this as the only failing input shape and the second
evaluates it.  On every input on which it returns, `normalizeRecord`
satisfies the claimed properties: upper-cased method defaulting to
`GET`, `/`-normalized path, fallback 0 for failed numeric coercions and
the current instant for a failed timestamp parse, and non-negative
`status_code`, `request_size`, `response_size` and
`response_time_ms`. -/
theorem claim_C5_normalizeRecord_invalid_date (now : Int)
    (input : ApiLensRecordInput) (defaultEnvironment : String) :
    (normalizeRecord now input defaultEnvironment = none
      ↔ input.timestamp = TimeVal.invalidDate)
    ∧ normalizeRecord 7 { timestamp := TimeVal.invalidDate } "e" = none
    ∧ (∀ r, normalizeRecord now input defaultEnvironment = some r →
        r.method = jsToUpper (if input.method = "" then "GET"
            else input.method)
        ∧ (jsTrim input.path = "" → r.path = "/")
        ∧ (jsTrim input.path ≠ "" →
            r.path = (if jsStartsWith (jsTrim input.path) "/" then
                jsTrim input.path
              else "/" ++ jsTrim input.path))
        ∧ (input.status_code = .nonfin → r.status_code = 0)
        ∧ (input.request_size = .nonfin → r.request_size = 0)
        ∧ (input.response_size = .nonfin → r.response_size = 0)
        ∧ (input.response_time_ms = .nonfin → r.response_time_ms = 0)
        ∧ (input.timestamp = .absent ∨ input.timestamp = .unparseable →
            r.timestamp = now)
        ∧ 0 ≤ r.status_code
        ∧ 0 ≤ r.request_size
        ∧ 0 ≤ r.response_size
        ∧ 0 ≤ r.response_time_ms) := by
  refine ⟨?_, by decide, ?_⟩
  · cases ht : input.timestamp <;> simp [normalizeRecord, toISO8601, ht]
  · intro r hr
    cases ht : toISO8601 now input.timestamp with
    | none => simp [normalizeRecord, ht] at hr
    | some ts =>
      simp only [normalizeRecord, ht, Option.some.injEq] at hr
      subst hr
      refine ⟨rfl, ?_, ?_, ?_, ?_, ?_, ?_, ?_,
        toNonNegativeInt_nonneg input.status_code,
        toNonNegativeInt_nonneg input.request_size,
        toNonNegativeInt_nonneg input.response_size,
        le_max_right _ _⟩
      · intro h
        show normalizePath (if input.path = "" then "/" else input.path)
          = "/"
        by_cases hp : input.path = ""
        · rw [if_pos hp]
          decide
        · rw [if_neg hp]
          simp [normalizePath, hp, h]
      · intro h
        have hp : input.path ≠ "" := by
          intro e
          apply h
          rw [e]
          decide
        show normalizePath (if input.path = "" then "/" else input.path)
          = (if jsStartsWith (jsTrim input.path) "/" then jsTrim input.path
             else "/" ++ jsTrim input.path)
        rw [if_neg hp]
        simp [normalizePath, hp, h]
      · intro h
        show toNonNegativeInt input.status_code 0 = 0
        rw [h]
        decide
      · intro h
        show toNonNegativeInt input.request_size 0 = 0
        rw [h]
        decide
      · intro h
        show toNonNegativeInt input.response_size 0 = 0
        rw [h]
        decide
      · intro h
        show max (toNumber input.response_time_ms 0) 0 = 0
        rw [h]
        decide
      · intro h
        show ts = now
        rcases h with h | h <;>
          · rw [h] at ht
            simp only [toISO8601, Option.some.injEq] at ht
            exact ht.symm

/-- C5 witness: the invalid-Date input makes normalization throw, while
a concrete well-formed input normalizes to the claimed field values. -/
theorem claim_C5_witness :
    normalizeRecord 7 { timestamp := TimeVal.invalidDate } "e" = none
    ∧ jsTrim " a " ≠ ""
    ∧ "/a" = (if jsStartsWith (jsTrim " a ") "/" then jsTrim " a "
        else "/" ++ jsTrim " a ") := by
  refine ⟨(claim_C5_normalizeRecord_invalid_date 7
      { timestamp := TimeVal.invalidDate } "e").2.1, by decide, ?_⟩
  exact ((claim_C5_normalizeRecord_invalid_date 7
      { method := "get", path := " a " } "e").2.2
      { timestamp := 7, environment := "e", method := "GET", path := "/a",
        status_code := 0, response_time_ms := 0, request_size := 0,
        response_size := 0, ip_address := "", user_agent := "",
        consumer_id := "", consumer_name := "", consumer_group := "",
        request_payload := "", response_payload := "" }
      (by decide)).2.2.1 (by decide)

/-- C4: the ingest endpoint is resolved from the trailing-slash-stripped
base URL and the trimmed ingest path by three rules in priority order:
an ingest path matching `^https?://` case-insensitively is used
verbatim regardless of the base URL; a leading `/` resolves against only
the origin of the base URL, ignoring its path component; anything else
is appended under the base URL's full path.  The three concrete examples
of the spec are checked, along with a second base showing the origin
rule ignores the base path and a trailing-slash base. -/
theorem claim_C4_endpoint_resolution :
    ApiLensClient.sendBatchEndpoint "ingest/requests" "http://h:8000/api/v1"
        = some "http://h:8000/api/v1/ingest/requests"
    ∧ ApiLensClient.sendBatchEndpoint "/ingest/requests"
        "http://h:8000/api/v1" = some "http://h:8000/ingest/requests"
    ∧ ApiLensClient.sendBatchEndpoint "https://x/y" "http://h:8000/api/v1"
        = some "https://x/y"
    ∧ ApiLensClient.sendBatchEndpoint "/ingest/requests"
        "http://h:8000/other/deep/path" = some "http://h:8000/ingest/requests"
    ∧ ApiLensClient.sendBatchEndpoint "ingest/requests"
        "http://h:8000/api/v1/" = some "http://h:8000/api/v1/ingest/requests"
    ∧ ApiLensClient.sendBatchEndpoint "HTTPS://x/y" "http://h:8000/api/v1"
        = some "HTTPS://x/y"
    ∧ (∀ ingestPath baseUrl : String,
        isHttpAbsolute (jsTrim (if ingestPath = "" then "ingest/requests"
            else ingestPath)) = true →
        ApiLensClient.sendBatchEndpoint ingestPath baseUrl
          = some (jsTrim (if ingestPath = "" then "ingest/requests"
              else ingestPath))) := by
  refine ⟨by decide, by decide, by decide, by decide, by decide, by decide,
    ?_⟩
  intro ingestPath baseUrl h
  simp [ApiLensClient.sendBatchEndpoint, h]

/-- C4 witness: an upper-case absolute ingest path is used verbatim for
an arbitrary base URL, via the verbatim-rule conjunct. -/
theorem claim_C4_witness :
    isHttpAbsolute (jsTrim (if "HTTP://e/f" = "" then "ingest/requests"
        else "HTTP://e/f")) = true
    ∧ ApiLensClient.sendBatchEndpoint "HTTP://e/f" "nonsense-base"
        = some (jsTrim (if "HTTP://e/f" = "" then "ingest/requests"
            else "HTTP://e/f")) :=
  ⟨by decide,
    claim_C4_endpoint_resolution.2.2.2.2.2.2 "HTTP://e/f" "nonsense-base"
      (by decide)⟩

theorem captureRecord_config_enabled (cfg : ClientConfig) (s : ClientState)
    (r : ApiLensRecord) :
    (ApiLensClient.captureRecord cfg s r).config_enabled
      = s.config_enabled := by
  simp only [ApiLensClient.captureRecord]
  split
  · rfl
  · split <;> rfl

theorem captureRecord_at_capacity (cfg : ClientConfig) (s : ClientState)
    (r : ApiLensRecord) (h1 : s.config_enabled = true)
    (h2 : cfg.maxQueueSize ≤ s.queue.length) :
    ApiLensClient.captureRecord cfg s r
      = { s with queue := s.queue.tail ++ [r],
                 droppedCount := s.droppedCount + 1 } := by
  simp [ApiLensClient.captureRecord, h1, h2]

theorem captureRecord_below_capacity (cfg : ClientConfig) (s : ClientState)
    (r : ApiLensRecord) (h1 : s.config_enabled = true)
    (h2 : s.queue.length < cfg.maxQueueSize) :
    ApiLensClient.captureRecord cfg s r
      = { s with queue := s.queue ++ [r] } := by
  simp [ApiLensClient.captureRecord, h1, Nat.not_le.mpr h2]

theorem captureRecord_conservation_step (cfg : ClientConfig)
    (s : ClientState) (r : ApiLensRecord) (h1 : s.config_enabled = true)
    (hmax : 1 ≤ cfg.maxQueueSize) :
    (ApiLensClient.captureRecord cfg s r).droppedCount
        + (ApiLensClient.captureRecord cfg s r).queue.length
      = s.droppedCount + s.queue.length + 1 := by
  by_cases h2 : cfg.maxQueueSize ≤ s.queue.length
  · rw [captureRecord_at_capacity cfg s r h1 h2]
    simp [List.length_tail]
    omega
  · rw [captureRecord_below_capacity cfg s r h1 (Nat.lt_of_not_le h2)]
    simp
    omega

theorem captureRecord_fold_conservation (cfg : ClientConfig)
    (hmax : 1 ≤ cfg.maxQueueSize) :
    ∀ (rs : List ApiLensRecord) (s : ClientState),
      s.config_enabled = true →
      (List.foldl (ApiLensClient.captureRecord cfg) s rs).droppedCount
          + (List.foldl (ApiLensClient.captureRecord cfg) s rs).queue.length
        = s.droppedCount + s.queue.length + rs.length := by
  intro rs
  induction rs with
  | nil => intro s _; simp
  | cons r rs ih =>
    intro s h1
    simp only [List.foldl_cons, List.length_cons]
    have h1' : (ApiLensClient.captureRecord cfg s r).config_enabled
        = true := by
      rw [captureRecord_config_enabled]
      exact h1
    have e1 := ih (ApiLensClient.captureRecord cfg s r) h1'
    have e2 := captureRecord_conservation_step cfg s r h1 hmax
    omega

/-- C1: on an enabled client with a usable capacity, `captureRecord`
keeps the queue length at most `maxQueueSize`; at capacity it evicts
exactly the single front record, preserves the FIFO order of the
survivors and increments `droppedCount` by one, and below capacity it
appends without dropping, so over any capture sequence the dropped
counter plus the queue length grows by exactly one per capture (dropped
equals total evictions); with `maxQueueSize = 2`, capturing `/a`, `/b`,
`/c` in order leaves the queue `[/b, /c]` and one dropped record. -/
theorem claim_C1_bounded_queue (cfg : ClientConfig) (s : ClientState)
    (r : ApiLensRecord) (h1 : s.config_enabled = true)
    (hmax : 1 ≤ cfg.maxQueueSize) :
    (s.queue.length ≤ cfg.maxQueueSize →
      (ApiLensClient.captureRecord cfg s r).queue.length ≤ cfg.maxQueueSize)
    ∧ (cfg.maxQueueSize ≤ s.queue.length →
      ApiLensClient.captureRecord cfg s r
        = { s with queue := s.queue.tail ++ [r],
                   droppedCount := s.droppedCount + 1 })
    ∧ (s.queue.length < cfg.maxQueueSize →
      ApiLensClient.captureRecord cfg s r
        = { s with queue := s.queue ++ [r] })
    ∧ (∀ rs : List ApiLensRecord,
      (List.foldl (ApiLensClient.captureRecord cfg) s rs).droppedCount
          + (List.foldl (ApiLensClient.captureRecord cfg) s rs).queue.length
        = s.droppedCount + s.queue.length + rs.length)
    ∧ (List.foldl (ApiLensClient.captureRecord exampleCfgQ2)
          freshClientState
          [recOfPath "/a", recOfPath "/b", recOfPath "/c"]).queue
        = [recOfPath "/b", recOfPath "/c"]
    ∧ (List.foldl (ApiLensClient.captureRecord exampleCfgQ2)
          freshClientState
          [recOfPath "/a", recOfPath "/b", recOfPath "/c"]).droppedCount
        = 1 := by
  refine ⟨?_, captureRecord_at_capacity cfg s r h1,
    captureRecord_below_capacity cfg s r h1,
    fun rs => captureRecord_fold_conservation cfg hmax rs s h1,
    by decide, by decide⟩
  intro hle
  by_cases h2 : cfg.maxQueueSize ≤ s.queue.length
  · rw [captureRecord_at_capacity cfg s r h1 h2]
    simp [List.length_tail]
    omega
  · rw [captureRecord_below_capacity cfg s r h1 (Nat.lt_of_not_le h2)]
    simp
    omega

/-- C1 witness: capturing into a fresh empty client with capacity two
appends without dropping. -/
theorem claim_C1_witness :
    freshClientState.config_enabled = true
    ∧ 1 ≤ exampleCfgQ2.maxQueueSize
    ∧ freshClientState.queue.length < exampleCfgQ2.maxQueueSize
    ∧ ApiLensClient.captureRecord exampleCfgQ2 freshClientState
        (recOfPath "/a")
      = { freshClientState with
          queue := freshClientState.queue ++ [recOfPath "/a"] } :=
  ⟨rfl, by decide, by decide,
    (claim_C1_bounded_queue exampleCfgQ2 freshClientState (recOfPath "/a")
        rfl (by decide)).2.2.1 (by decide)⟩

theorem retryGo_calls_pos (oracle : Nat → Bool) (base cap k a rem : Nat) :
    1 ≤ (retryGo oracle base cap k a rem).calls := by
  cases rem <;> simp only [retryGo] <;> split <;> simp

theorem retryGo_first_success (oracle : Nat → Bool) (base cap k a rem : Nat)
    (h : oracle (k + a) = true) :
    retryGo oracle base cap k a rem = ⟨true, 1, []⟩ := by
  cases rem <;> simp [retryGo, h]

theorem backoff_cons_range (base cap a m : Nat) :
    min (base * 2 ^ a) cap
        :: (List.range m).map (fun i => min (base * 2 ^ (a + 1 + i)) cap)
      = (List.range (m + 1)).map (fun i => min (base * 2 ^ (a + i)) cap) := by
  rw [List.range_succ_eq_map, List.map_cons, List.map_map]
  have he : ((fun i => min (base * 2 ^ (a + i)) cap) ∘ Nat.succ)
      = fun i => min (base * 2 ^ (a + 1 + i)) cap := by
    funext i
    have e : a + (i + 1) = a + 1 + i := by omega
    simp [Function.comp, Nat.succ_eq_add_one, e]
  rw [he]
  simp

theorem retryGo_calls_le (oracle : Nat → Bool) (base cap k : Nat) :
    ∀ rem a, (retryGo oracle base cap k a rem).calls ≤ rem + 1 := by
  intro rem
  induction rem with
  | zero =>
    intro a
    simp only [retryGo]
    split <;> simp
  | succ n ih =>
    intro a
    simp only [retryGo]
    split
    · simp
    · have := ih (a + 1)
      simp
      omega

theorem retryGo_waits_spec (oracle : Nat → Bool) (base cap k : Nat) :
    ∀ rem a, (retryGo oracle base cap k a rem).waits
      = (List.range ((retryGo oracle base cap k a rem).calls - 1)).map
          (fun i => min (base * 2 ^ (a + i)) cap) := by
  intro rem
  induction rem with
  | zero =>
    intro a
    simp only [retryGo]
    split <;> simp
  | succ n ih =>
    intro a
    simp only [retryGo]
    split
    · simp
    · rw [ih (a + 1)]
      have hpos := retryGo_calls_pos oracle base cap k (a + 1) n
      obtain ⟨m, hm⟩ : ∃ m,
          (retryGo oracle base cap k (a + 1) n).calls = m + 1 :=
        ⟨(retryGo oracle base cap k (a + 1) n).calls - 1, by omega⟩
      simp only [hm, Nat.add_sub_cancel]
      exact backoff_cons_range base cap a m

theorem retryGo_success_at (oracle : Nat → Bool) (base cap k : Nat) :
    ∀ N rem a, N ≤ rem →
      (∀ i, i < N → oracle (k + (a + i)) = false) →
      oracle (k + (a + N)) = true →
      retryGo oracle base cap k a rem
        = ⟨true, N + 1,
           (List.range N).map (fun i => min (base * 2 ^ (a + i)) cap)⟩ := by
  intro N
  induction N with
  | zero =>
    intro rem a _ _ hsucc
    have h : oracle (k + a) = true := by simpa using hsucc
    simp [retryGo_first_success oracle base cap k a rem h]
  | succ n ih =>
    intro rem a hle hfail hsucc
    obtain ⟨m, rfl⟩ : ∃ m, rem = m + 1 := ⟨rem - 1, by omega⟩
    have h0 : oracle (k + a) = false := by
      simpa using hfail 0 (Nat.succ_pos n)
    have hf : ∀ i, i < n → oracle (k + (a + 1 + i)) = false := by
      intro i hi
      have e : k + (a + 1 + i) = k + (a + (i + 1)) := by omega
      rw [e]
      exact hfail (i + 1) (by omega)
    have hs : oracle (k + (a + 1 + n)) = true := by
      have e : k + (a + 1 + n) = k + (a + (n + 1)) := by omega
      rw [e]
      exact hsucc
    simp only [retryGo, h0, Bool.false_eq_true, if_false]
    rw [ih m (a + 1) (by omega) hf hs]
    exact congrArg (RetryResult.mk true (n + 1 + 1))
      (backoff_cons_range base cap a n)

theorem flushOnce_empty (cfg : ClientConfig) (oracle : Nat → Bool) (k : Nat)
    (s : ClientState) (h : s.queue = []) :
    ApiLensClient.flushOnce cfg oracle k s = ⟨s, 0, [], false⟩ := by
  simp [ApiLensClient.flushOnce, h]

theorem flushOnce_success_eq (cfg : ClientConfig) (oracle : Nat → Bool)
    (k : Nat) (s : ClientState) (hq : s.queue ≠ [])
    (hs : (ApiLensClient.sendBatchWithRetry cfg oracle k).success = true) :
    ApiLensClient.flushOnce cfg oracle k s
      = ⟨{ s with queue := s.queue.drop cfg.batchSize },
         (s.queue.take cfg.batchSize).length,
         List.replicate
           (ApiLensClient.sendBatchWithRetry cfg oracle k).calls
           (s.queue.take cfg.batchSize), false⟩ := by
  simp [ApiLensClient.flushOnce, hq, hs]

theorem flushOnce_failure_eq (cfg : ClientConfig) (oracle : Nat → Bool)
    (k : Nat) (s : ClientState) (hq : s.queue ≠ [])
    (hs : (ApiLensClient.sendBatchWithRetry cfg oracle k).success = false) :
    ApiLensClient.flushOnce cfg oracle k s
      = ⟨{ s with queue := s.queue.drop cfg.batchSize }, 0,
         List.replicate
           (ApiLensClient.sendBatchWithRetry cfg oracle k).calls
           (s.queue.take cfg.batchSize), true⟩ := by
  simp [ApiLensClient.flushOnce, hq, hs]

theorem flushOnce_shrinks (cfg : ClientConfig) (oracle : Nat → Bool)
    (k : Nat) (s : ClientState)
    (h : (ApiLensClient.flushOnce cfg oracle k s).sent ≠ 0) :
    (ApiLensClient.flushOnce cfg oracle k s).state.queue.length
      < s.queue.length := by
  by_cases hq : s.queue = []
  · rw [flushOnce_empty cfg oracle k s hq] at h
    simp at h
  · by_cases hs : (ApiLensClient.sendBatchWithRetry cfg oracle k).success
        = true
    · rw [flushOnce_success_eq cfg oracle k s hq hs] at h ⊢
      simp only [List.length_take, List.length_drop] at h ⊢
      have hne : s.queue.length ≠ 0 := fun e => hq (List.length_eq_zero.mp e)
      omega
    · have hs' : (ApiLensClient.sendBatchWithRetry cfg oracle k).success
          = false := by
        simpa using hs
      rw [flushOnce_failure_eq cfg oracle k s hq hs'] at h
      simp at h

/-- C2: `flushOnce` returns 0 with no transport call on an empty queue;
otherwise it removes exactly `min(batchSize, queue length)` records from
the front, and on delivery failure it logs the warning, keeps the batch
out of the queue and returns 0, while on success it returns the size of
the removed batch. -/
theorem claim_C2_flushOnce (cfg : ClientConfig) (oracle : Nat → Bool)
    (k : Nat) (s : ClientState) :
    (s.queue = [] → ApiLensClient.flushOnce cfg oracle k s = ⟨s, 0, [], false⟩)
    ∧ (s.queue ≠ [] →
        (ApiLensClient.flushOnce cfg oracle k s).state.queue
            = s.queue.drop cfg.batchSize
        ∧ (s.queue.take cfg.batchSize).length
            = min cfg.batchSize s.queue.length
        ∧ ((ApiLensClient.sendBatchWithRetry cfg oracle k).success = false →
            (ApiLensClient.flushOnce cfg oracle k s).sent = 0
            ∧ (ApiLensClient.flushOnce cfg oracle k s).warned = true)
        ∧ ((ApiLensClient.sendBatchWithRetry cfg oracle k).success = true →
            (ApiLensClient.flushOnce cfg oracle k s).sent
              = min cfg.batchSize s.queue.length
            ∧ (ApiLensClient.flushOnce cfg oracle k s).warned = false)) := by
  constructor
  · exact flushOnce_empty cfg oracle k s
  · intro hq
    refine ⟨?_, List.length_take _ _, ?_, ?_⟩
    · by_cases hs : (ApiLensClient.sendBatchWithRetry cfg oracle k).success
          = true
      · rw [flushOnce_success_eq cfg oracle k s hq hs]
      · have hs' : (ApiLensClient.sendBatchWithRetry cfg oracle k).success
            = false := by
          simpa using hs
        rw [flushOnce_failure_eq cfg oracle k s hq hs']
    · intro hs'
      rw [flushOnce_failure_eq cfg oracle k s hq hs']
      exact ⟨rfl, rfl⟩
    · intro hs
      rw [flushOnce_success_eq cfg oracle k s hq hs]
      exact ⟨List.length_take _ _, rfl⟩

/-- C2 witness: a one-record queue flushed against an always-failing
transport is discarded with a warning and a zero return. -/
theorem claim_C2_witness :
    ([recOfPath "/a"] : List ApiLensRecord) ≠ []
    ∧ (ApiLensClient.sendBatchWithRetry exampleCfgQ2 (fun _ => false)
        0).success = false
    ∧ (ApiLensClient.flushOnce exampleCfgQ2 (fun _ => false) 0
        { freshClientState with queue := [recOfPath "/a"] }).sent = 0
    ∧ (ApiLensClient.flushOnce exampleCfgQ2 (fun _ => false) 0
        { freshClientState with queue := [recOfPath "/a"] }).warned
        = true := by
  have h := (claim_C2_flushOnce exampleCfgQ2 (fun _ => false) 0
      { freshClientState with queue := [recOfPath "/a"] }).2 (by decide)
  exact ⟨by decide, by decide, (h.2.2.1 (by decide)).1, (h.2.2.1 (by decide)).2⟩

/-- C3: `sendBatchWithRetry` makes at most `maxRetries + 1` transport
calls, sleeping `min(retryBackoffBaseMs * 2 ^ attempt, retryBackoffMaxMs)`
after each failed attempt (indexed from 0) and never after the final
failure; when the transport fails the first `N ≤ maxRetries` calls and
succeeds on the next, exactly `N + 1` calls are made, the retry reports
success, and the enclosing flush reports the removed batch's full
size. -/
theorem claim_C3_retry_schedule (cfg : ClientConfig) (oracle : Nat → Bool)
    (k : Nat) :
    (ApiLensClient.sendBatchWithRetry cfg oracle k).calls
        ≤ cfg.maxRetries + 1
    ∧ (ApiLensClient.sendBatchWithRetry cfg oracle k).waits
        = (List.range
            ((ApiLensClient.sendBatchWithRetry cfg oracle k).calls - 1)).map
            (fun i => min (cfg.retryBackoffBaseMs * 2 ^ i)
              cfg.retryBackoffMaxMs)
    ∧ (∀ N, N ≤ cfg.maxRetries →
        (∀ i, i < N → oracle (k + i) = false) →
        oracle (k + N) = true →
        ApiLensClient.sendBatchWithRetry cfg oracle k
          = ⟨true, N + 1,
             (List.range N).map
               (fun i => min (cfg.retryBackoffBaseMs * 2 ^ i)
                 cfg.retryBackoffMaxMs)⟩
        ∧ ∀ s : ClientState, s.queue ≠ [] →
            (ApiLensClient.flushOnce cfg oracle k s).sent
              = (s.queue.take cfg.batchSize).length) := by
  refine ⟨retryGo_calls_le oracle _ _ k cfg.maxRetries 0, ?_, ?_⟩
  · have h := retryGo_waits_spec oracle cfg.retryBackoffBaseMs
      cfg.retryBackoffMaxMs k cfg.maxRetries 0
    simpa [ApiLensClient.sendBatchWithRetry] using h
  · intro N hle hfail hsucc
    have hf : ∀ i, i < N → oracle (k + (0 + i)) = false := by
      intro i hi
      simpa using hfail i hi
    have hs : oracle (k + (0 + N)) = true := by simpa using hsucc
    have h := retryGo_success_at oracle cfg.retryBackoffBaseMs
      cfg.retryBackoffMaxMs k N cfg.maxRetries 0 hle hf hs
    have heq : ApiLensClient.sendBatchWithRetry cfg oracle k
        = ⟨true, N + 1,
           (List.range N).map
             (fun i => min (cfg.retryBackoffBaseMs * 2 ^ i)
               cfg.retryBackoffMaxMs)⟩ := by
      simpa [ApiLensClient.sendBatchWithRetry] using h
    refine ⟨heq, ?_⟩
    intro s hq
    rw [flushOnce_success_eq cfg oracle k s hq (by rw [heq])]

/-- C3 witness: with `maxRetries = 3`, a transport failing calls 0 and 1
and succeeding on call 2 yields exactly 3 calls and the capped
exponential waits. -/
theorem claim_C3_witness :
    2 ≤ exampleCfgQ2.maxRetries
    ∧ ApiLensClient.sendBatchWithRetry exampleCfgQ2
        (fun i => decide (i = 2)) 0
      = ⟨true, 3, (List.range 2).map
          (fun i => min (exampleCfgQ2.retryBackoffBaseMs * 2 ^ i)
            exampleCfgQ2.retryBackoffMaxMs)⟩ :=
  ⟨by decide,
    ((claim_C3_retry_schedule exampleCfgQ2 (fun i => decide (i = 2)) 0).2.2
      2 (by decide) (by intro i hi; interval_cases i <;> decide)
      (by decide)).1⟩

theorem flushOnce_flags (cfg : ClientConfig) (oracle : Nat → Bool) (k : Nat)
    (s : ClientState) :
    (ApiLensClient.flushOnce cfg oracle k s).state.config_enabled
        = s.config_enabled
    ∧ (ApiLensClient.flushOnce cfg oracle k s).state.timerArmed
        = s.timerArmed := by
  by_cases hq : s.queue = []
  · rw [flushOnce_empty cfg oracle k s hq]
    exact ⟨rfl, rfl⟩
  · by_cases hs : (ApiLensClient.sendBatchWithRetry cfg oracle k).success
        = true
    · rw [flushOnce_success_eq cfg oracle k s hq hs]
      exact ⟨rfl, rfl⟩
    · rw [flushOnce_failure_eq cfg oracle k s hq (by simpa using hs)]
      exact ⟨rfl, rfl⟩

theorem flushAllGo_flags (cfg : ClientConfig) (oracle : Nat → Bool) :
    ∀ fuel k s,
      (flushAllGo cfg oracle fuel k s).state.config_enabled
          = s.config_enabled
      ∧ (flushAllGo cfg oracle fuel k s).state.timerArmed = s.timerArmed := by
  intro fuel
  induction fuel with
  | zero => intro k s; exact ⟨rfl, rfl⟩
  | succ n ih =>
    intro k s
    simp only [flushAllGo]
    by_cases hq : s.queue.isEmpty
    · simp [hq]
    · simp only [Bool.not_eq_true] at hq
      simp only [hq, Bool.false_eq_true, if_false]
      by_cases hsent : (ApiLensClient.flushOnce cfg oracle k s).sent = 0
      · simp only [hsent, if_true]
        exact flushOnce_flags cfg oracle k s
      · simp only [hsent, if_false]
        constructor
        · rw [(ih _ _).1, (flushOnce_flags cfg oracle k s).1]
        · rw [(ih _ _).2, (flushOnce_flags cfg oracle k s).2]

theorem flushAllGo_fuel_irrel (cfg : ClientConfig) (oracle : Nat → Bool) :
    ∀ fuel1 fuel2 k s, s.queue.length ≤ fuel1 → s.queue.length ≤ fuel2 →
      flushAllGo cfg oracle fuel1 k s = flushAllGo cfg oracle fuel2 k s := by
  intro fuel1
  induction fuel1 with
  | zero =>
    intro fuel2 k s h1 _
    have hq : s.queue = [] := by
      cases hqe : s.queue with
      | nil => rfl
      | cons a l => rw [hqe] at h1; simp at h1
    cases fuel2 with
    | zero => rfl
    | succ m => simp [flushAllGo, hq]
  | succ n ih =>
    intro fuel2 k s h1 h2
    cases fuel2 with
    | zero =>
      have hq : s.queue = [] := by
        cases hqe : s.queue with
        | nil => rfl
        | cons a l => rw [hqe] at h2; simp at h2
      simp [flushAllGo, hq]
    | succ m =>
      simp only [flushAllGo]
      by_cases hq : s.queue.isEmpty
      · simp [hq]
      · simp only [Bool.not_eq_true] at hq
        simp only [hq, Bool.false_eq_true, if_false]
        by_cases hsent : (ApiLensClient.flushOnce cfg oracle k s).sent = 0
        · simp [hsent]
        · simp only [hsent, if_false]
          have hlt := flushOnce_shrinks cfg oracle k s hsent
          rw [ih m (k + (ApiLensClient.flushOnce cfg oracle k s).calls.length)
            (ApiLensClient.flushOnce cfg oracle k s).state (by omega)
            (by omega)]

theorem flushAllGo_allSuccess (cfg : ClientConfig) (oracle : Nat → Bool)
    (hall : ∀ i, oracle i = true) (hbs : 1 ≤ cfg.batchSize) :
    ∀ fuel k s, s.queue.length ≤ fuel →
      (flushAllGo cfg oracle fuel k s).state.queue = []
      ∧ (flushAllGo cfg oracle fuel k s).sent = s.queue.length
      ∧ (flushAllGo cfg oracle fuel k s).calls.flatten = s.queue := by
  intro fuel
  induction fuel with
  | zero =>
    intro k s h
    have hq : s.queue = [] := by
      cases hqe : s.queue with
      | nil => rfl
      | cons a l => rw [hqe] at h; simp at h
    simp [flushAllGo, hq]
  | succ n ih =>
    intro k s h
    by_cases hq : s.queue = []
    · simp [flushAllGo, hq]
    · have hsucc : ApiLensClient.sendBatchWithRetry cfg oracle k
          = ⟨true, 1, []⟩ :=
        retryGo_first_success oracle _ _ k 0 cfg.maxRetries
          (by simpa using hall k)
      have hfo : ApiLensClient.flushOnce cfg oracle k s
          = ⟨{ s with queue := s.queue.drop cfg.batchSize },
             (s.queue.take cfg.batchSize).length,
             [s.queue.take cfg.batchSize], false⟩ := by
        rw [flushOnce_success_eq cfg oracle k s hq (by rw [hsucc]), hsucc]
        rfl
      have hne : s.queue.length ≠ 0 :=
        fun e => hq (List.length_eq_zero.mp e)
      have hqe : s.queue.isEmpty = false := by
        cases hql : s.queue with
        | nil => exact absurd hql hq
        | cons a l => rfl
      simp only [flushAllGo, hqe, Bool.false_eq_true, if_false, hfo]
      rw [if_neg (by simp only [List.length_take]; omega)]
      have hdrop : (s.queue.drop cfg.batchSize).length ≤ n := by
        simp only [List.length_drop]
        omega
      obtain ⟨ih1, ih2, ih3⟩ :=
        ih (k + 1) { s with queue := s.queue.drop cfg.batchSize } hdrop
      simp only [List.length_singleton]
      refine ⟨ih1, ?_, ?_⟩
      · rw [ih2]
        simp only [List.length_take, List.length_drop]
        omega
      · simp only [List.singleton_append, List.flatten_cons]
        rw [ih3]
        exact List.take_append_drop cfg.batchSize s.queue

/-- C7: `flushAll` terminates with a well-defined result satisfying the
loop equation of the `while` loop (third conjunct): it repeatedly runs
`flushOnce` until the queue is empty or a flush returns 0, accumulating
the totals.  On an empty queue it returns 0 with no transport call, any
`flushOnce` that reports progress strictly shrinks the queue (the
well-founded measure), and under an always-succeeding transport with a
usable batch size it drains the queue completely, returning the total
number of records sent. -/
theorem claim_C7_flushAll_terminates (cfg : ClientConfig)
    (oracle : Nat → Bool) (k : Nat) (s : ClientState) :
    (s.queue = [] → ApiLensClient.flushAll cfg oracle k s = ⟨s, 0, []⟩)
    ∧ ((ApiLensClient.flushOnce cfg oracle k s).sent ≠ 0 →
        (ApiLensClient.flushOnce cfg oracle k s).state.queue.length
          < s.queue.length)
    ∧ ApiLensClient.flushAll cfg oracle k s
        = (if s.queue.isEmpty then ⟨s, 0, []⟩
           else
             if (ApiLensClient.flushOnce cfg oracle k s).sent = 0 then
               ⟨(ApiLensClient.flushOnce cfg oracle k s).state, 0,
                (ApiLensClient.flushOnce cfg oracle k s).calls⟩
             else
               ⟨(ApiLensClient.flushAll cfg oracle
                   (k + (ApiLensClient.flushOnce cfg oracle k s).calls.length)
                   (ApiLensClient.flushOnce cfg oracle k s).state).state,
                (ApiLensClient.flushOnce cfg oracle k s).sent
                  + (ApiLensClient.flushAll cfg oracle
                      (k + (ApiLensClient.flushOnce cfg oracle
                        k s).calls.length)
                      (ApiLensClient.flushOnce cfg oracle k s).state).sent,
                (ApiLensClient.flushOnce cfg oracle k s).calls
                  ++ (ApiLensClient.flushAll cfg oracle
                      (k + (ApiLensClient.flushOnce cfg oracle
                        k s).calls.length)
                      (ApiLensClient.flushOnce cfg oracle k s).state).calls⟩)
    ∧ ((∀ i, oracle i = true) → 1 ≤ cfg.batchSize →
        (ApiLensClient.flushAll cfg oracle k s).state.queue = []
        ∧ (ApiLensClient.flushAll cfg oracle k s).sent
            = s.queue.length) := by
  refine ⟨?_, flushOnce_shrinks cfg oracle k s, ?_, ?_⟩
  · intro hq
    simp [ApiLensClient.flushAll, hq, flushAllGo]
  · by_cases hq : s.queue = []
    · simp [ApiLensClient.flushAll, hq, flushAllGo]
    · obtain ⟨m, hm⟩ : ∃ m, s.queue.length = m + 1 :=
        ⟨s.queue.length - 1, by
          have := List.length_pos.mpr hq
          omega⟩
      have hqe : s.queue.isEmpty = false := by
        cases hql : s.queue with
        | nil => exact absurd hql hq
        | cons a l => rfl
      simp only [ApiLensClient.flushAll, hm, flushAllGo, hqe,
        Bool.false_eq_true, if_false]
      by_cases hsent : (ApiLensClient.flushOnce cfg oracle k s).sent = 0
      · simp [hsent]
      · simp only [hsent, if_false]
        have hlt := flushOnce_shrinks cfg oracle k s hsent
        rw [flushAllGo_fuel_irrel cfg oracle m
          (ApiLensClient.flushOnce cfg oracle k s).state.queue.length
          (k + (ApiLensClient.flushOnce cfg oracle k s).calls.length)
          (ApiLensClient.flushOnce cfg oracle k s).state (by omega)
          (le_refl _)]
  · intro hall hbs
    have h := flushAllGo_allSuccess cfg oracle hall hbs s.queue.length k s
      (le_refl _)
    exact ⟨h.1, h.2.1⟩

/-- C7 witness: an always-succeeding transport drains a two-record queue
completely, reporting two records sent. -/
theorem claim_C7_witness :
    1 ≤ exampleCfgQ2.batchSize
    ∧ (ApiLensClient.flushAll exampleCfgQ2 (fun _ => true) 0
        { freshClientState with
          queue := [recOfPath "/a", recOfPath "/b"] }).state.queue = []
    ∧ (ApiLensClient.flushAll exampleCfgQ2 (fun _ => true) 0
        { freshClientState with
          queue := [recOfPath "/a", recOfPath "/b"] }).sent = 2 := by
  have h := (claim_C7_flushAll_terminates exampleCfgQ2 (fun _ => true) 0
      { freshClientState with
        queue := [recOfPath "/a", recOfPath "/b"] }).2.2.2
    (fun _ => rfl) (by decide)
  exact ⟨by decide, h.1, h.2⟩

/-- C6 (amended): `handleShutdown` sets `enabled` to false and stops the
flush timer, and with `flush: true` it drains via `flushAll` on the
stopped state; when every transport call succeeds and the batch size is
usable, the queue is empty afterwards and every record still in the
queue at shutdown (captured and neither evicted by the drop-oldest
overflow policy nor already flushed) appears, in order, in the transport
calls made. -/
theorem claim_C6_shutdown_flush (cfg : ClientConfig) (oracle : Nat → Bool)
    (k : Nat) (s : ClientState) :
    (∀ flush,
      (ApiLensClient.handleShutdown flush cfg oracle k s).1.config_enabled
          = false
      ∧ (ApiLensClient.handleShutdown flush cfg oracle k s).1.timerArmed
          = false)
    ∧ (ApiLensClient.handleShutdown true cfg oracle k s).2
        = (ApiLensClient.flushAll cfg oracle k
            (ApiLensClient.stop { s with config_enabled := false })).calls
    ∧ ((∀ i, oracle i = true) → 1 ≤ cfg.batchSize →
        (ApiLensClient.handleShutdown true cfg oracle k s).1.queue = []
        ∧ (ApiLensClient.handleShutdown true cfg oracle k s).2.flatten
            = s.queue) := by
  refine ⟨?_, rfl, ?_⟩
  · intro flush
    cases flush with
    | false => exact ⟨rfl, rfl⟩
    | true =>
      have h := flushAllGo_flags cfg oracle
        (ApiLensClient.stop { s with config_enabled := false }).queue.length
        k (ApiLensClient.stop { s with config_enabled := false })
      exact ⟨h.1, h.2⟩
  · intro hall hbs
    have h := flushAllGo_allSuccess cfg oracle hall hbs
      (ApiLensClient.stop { s with config_enabled := false }).queue.length
      k (ApiLensClient.stop { s with config_enabled := false }) (le_refl _)
    exact ⟨h.1, h.2.2⟩

/-- C6 counterexample to the claim as stated: with `maxQueueSize = 1` and
the default batch size, capturing `/a` then `/b` evicts `/a`; a
shutdown with `flush: true` against an always-succeeding transport then
delivers only `/b`, so the record `/a` captured before shutdown never
appears in any transport call even though delivery never failed. -/
theorem claim_C6_counterexample :
    (ApiLensClient.handleShutdown true exampleCfgQ1 (fun _ => true) 0
        (ApiLensClient.captureRecord exampleCfgQ1
          (ApiLensClient.captureRecord exampleCfgQ1 freshClientState
            (recOfPath "/a"))
          (recOfPath "/b"))).2 = [[recOfPath "/b"]]
    ∧ recOfPath "/a"
        ∉ (ApiLensClient.handleShutdown true exampleCfgQ1 (fun _ => true) 0
            (ApiLensClient.captureRecord exampleCfgQ1
              (ApiLensClient.captureRecord exampleCfgQ1 freshClientState
                (recOfPath "/a"))
              (recOfPath "/b"))).2.flatten := by
  constructor
  · decide
  · decide

/-- C6 witness: shutting down a client holding `/a` with an
always-succeeding transport empties the queue and delivers exactly the
queued records. -/
theorem claim_C6_witness :
    (ApiLensClient.handleShutdown true exampleCfgQ2 (fun _ => true) 0
        { freshClientState with queue := [recOfPath "/a"] }).1.queue = []
    ∧ (ApiLensClient.handleShutdown true exampleCfgQ2 (fun _ => true) 0
        { freshClientState with queue := [recOfPath "/a"] }).2.flatten
      = [recOfPath "/a"] := by
  have h := (claim_C6_shutdown_flush exampleCfgQ2 (fun _ => true) 0
      { freshClientState with queue := [recOfPath "/a"] }).2.2
    (fun _ => rfl) (by decide)
  exact ⟨h.1, h.2⟩

theorem writeChunkStep_bounded (capturePayloads logResponseBody : Bool)
    (maxPayloadBytes : Nat) (st : BodyAccum) (chunk : Option (List Nat))
    (h : st.bufferedSize ≤ maxPayloadBytes) :
    (writeChunkStep capturePayloads logResponseBody maxPayloadBytes st
        chunk).bufferedSize ≤ maxPayloadBytes := by
  cases chunk with
  | none => simpa [writeChunkStep] using h
  | some raw =>
    simp only [writeChunkStep]
    split
    · simp only [List.length_take]
      omega
    · simpa using h

theorem foldl_writeChunkStep_bounded (capturePayloads logResponseBody : Bool)
    (maxPayloadBytes : Nat) :
    ∀ (chunks : List (Option (List Nat))) (st : BodyAccum),
      st.bufferedSize ≤ maxPayloadBytes →
      (List.foldl
        (writeChunkStep capturePayloads logResponseBody maxPayloadBytes)
        st chunks).bufferedSize ≤ maxPayloadBytes := by
  intro chunks
  induction chunks with
  | nil => intro st h; simpa using h
  | cons c cs ih =>
    intro st h
    exact ih _ (writeChunkStep_bounded _ _ _ _ _ h)

theorem truncateUtf8_length (bytes : List Nat) (maxBytes : Int) :
    ((truncateUtf8 bytes maxBytes).length : Int) ≤ max maxBytes 0 := by
  simp only [truncateUtf8]
  split
  · simp
  · split
    · omega
    · simp only [List.length_take]
      omega

theorem payloadToString_length (v : PayloadValue) (m : Int) :
    ((payloadToString v m).length : Int) ≤ max m 0 := by
  simp only [payloadToString]
  split
  · simp
  · cases v with
    | nullish => simp
    | buf b => exact truncateUtf8_length b m
    | str b => exact truncateUtf8_length b m
    | other b => exact truncateUtf8_length b m

/-- C8: the buffered response-body accumulator never grows past the
`maxPayloadBytes` ceiling — each wrapped `write`/`end` call adds at most
the remaining room, so both a single step from any in-bounds state and
the whole fold from the initial state stay at or below the ceiling;
`payloadToString` returns at most `max(maxBytes, 0)` bytes for every
value, the empty string when `maxBytes` is non-positive or the value is
nullish, and both payload fields are empty when payload capture is
disabled. -/
theorem claim_C8_payload_ceiling (capturePayloads logResponseBody : Bool)
    (maxPayloadBytes : Nat) (chunks : List (Option (List Nat)))
    (st : BodyAccum) (chunk : Option (List Nat)) (v : PayloadValue)
    (m : Int) :
    (st.bufferedSize ≤ maxPayloadBytes →
      (writeChunkStep capturePayloads logResponseBody maxPayloadBytes st
          chunk).bufferedSize ≤ maxPayloadBytes)
    ∧ (List.foldl
        (writeChunkStep capturePayloads logResponseBody maxPayloadBytes)
        bodyAccumInit chunks).bufferedSize ≤ maxPayloadBytes
    ∧ ((payloadToString v m).length : Int) ≤ max m 0
    ∧ (m ≤ 0 → payloadToString v m = [])
    ∧ payloadToString PayloadValue.nullish m = []
    ∧ (∀ logRequestBody body,
        requestPayloadField false logRequestBody body m = [])
    ∧ responsePayloadField false logResponseBody st = [] := by
  refine ⟨writeChunkStep_bounded capturePayloads logResponseBody
      maxPayloadBytes st chunk,
    foldl_writeChunkStep_bounded capturePayloads logResponseBody
      maxPayloadBytes chunks bodyAccumInit (Nat.zero_le _),
    payloadToString_length v m, ?_, ?_, ?_, ?_⟩
  · intro h
    simp [payloadToString, h]
  · simp [payloadToString]
  · intro logRequestBody body
    simp [requestPayloadField]
  · simp [responsePayloadField]

/-- C8 witness: a three-byte chunk against a two-byte ceiling buffers
only the remaining room, and a negative ceiling yields the empty
payload. -/
theorem claim_C8_witness :
    (bodyAccumInit.bufferedSize ≤ 2
      → (writeChunkStep true true 2 bodyAccumInit
          (some [1, 2, 3])).bufferedSize ≤ 2)
    ∧ bodyAccumInit.bufferedSize ≤ 2
    ∧ (writeChunkStep true true 2 bodyAccumInit
        (some [1, 2, 3])).bufferedSize = 2
    ∧ ((-3 : Int) ≤ 0
        ∧ payloadToString (PayloadValue.buf [1]) (-3) = []) :=
  ⟨(claim_C8_payload_ceiling true true 2 [] bodyAccumInit
      (some [1, 2, 3]) (PayloadValue.buf [1]) (-3)).1,
    by decide, by decide,
    ⟨by decide,
      (claim_C8_payload_ceiling true true 2 [] bodyAccumInit
        (some [1, 2, 3]) (PayloadValue.buf [1]) (-3)).2.2.2.1
        (by decide)⟩⟩
